import Mathlib

/-!
Shallow embedding of the semantic-similarity graph engine of
`src/lib/graphUtils.js` and of the explanation cache inside
`src/components/KnowledgeGraph.tsx`.

Modelling conventions:
* JavaScript numbers are modelled as real numbers (`ℝ`).
* JavaScript strings are modelled as their character lists (`List Char`);
  the default JS string comparison is lexicographic on code units, which is
  the lexicographic order on `List Char`.
* `null` / `undefined` / absent values are modelled with `Option`.
* The `Map` used for the explanation cache is modelled as an association
  list in which `set` prepends and lookup takes the first match, which is
  observationally the same as overwriting.
-/

namespace JournalGraph

/-- A journal entry identifier (a JS string, as its character list). -/
abbrev EntryKey := List Char

/-- Sum `Σ v1[i] * v2[i]`.  The single `for` loop of `cosineSimilarity`
(`src/lib/graphUtils.js` lines 16-20) accumulates three such sums:
`dotProduct`, `norm1` (= `dotProduct vec1 vec1`) and `norm2`
(= `dotProduct vec2 vec2`); each is the sum of the pointwise products. -/
def dotProduct (v1 v2 : List ℝ) : ℝ :=
  (List.zipWith (· * ·) v1 v2).sum

/-- Embedding of `cosineSimilarity` (`src/lib/graphUtils.js` lines 7-28).
`none` models a `null`/`undefined`/missing vector (the JS guard
`!vec1 || !vec2`).  The guard also returns `0` on a length mismatch; the
loop then runs over the common length, so the three accumulated sums are
the `dotProduct` sums above.  `denominator === 0` is the exact zero test of
the JS code, and in that case `0` is returned instead of dividing. -/
noncomputable def cosineSimilarity (vec1 vec2 : Option (List ℝ)) : ℝ :=
  match vec1, vec2 with
  | some v1, some v2 =>
    if v1.length ≠ v2.length then 0
    else if Real.sqrt (dotProduct v1 v1) * Real.sqrt (dotProduct v2 v2) = 0 then 0
    else dotProduct v1 v2 / (Real.sqrt (dotProduct v1 v1) * Real.sqrt (dotProduct v2 v2))
  | _, _ => 0

/-- A journal entry as consumed by `buildKnowledgeGraph`: records exposing
`{id, title, content, created_at, embedding}` (spec §6).  `embedding` is
`none` when absent or not an array (the JS filter
`entry.embedding && Array.isArray(entry.embedding)` rejects exactly the
non-array values, which the typed model folds into `none`). -/
structure Entry where
  id : EntryKey
  title : List Char
  content : List Char
  created_at : List Char
  embedding : Option (List ℝ)

/-- A node of the built graph (`src/lib/graphUtils.js` lines 50-57). -/
structure Node where
  id : EntryKey
  title : List Char
  content : List Char
  createdAt : List Char
  embedding : List ℝ
  index : ℕ

/-- A link of the built graph (`src/lib/graphUtils.js` lines 69-74). -/
structure Link where
  source : EntryKey
  target : EntryKey
  similarity : ℝ
  value : ℝ

/-- The sort comparator of `buildKnowledgeGraph` (lines 43-48): ascending
by `id`, with `-1`/`1`/`0` from `<`/`>`/ties, i.e. ordering by `id ≤ id`. -/
def entryLE (a b : Entry) : Bool :=
  decide (a.id ≤ b.id)

/-- Lines 41-48: filter the entries with a valid embedding and sort them by
identifier (JS `Array.prototype.sort` is a stable sort consistent with the
comparator above; `mergeSort` is such a sort). -/
def sortedEntries (entries : List Entry) : List Entry :=
  ((entries.filter fun e => e.embedding.isSome).mergeSort entryLE)

/-- Lines 50-57: materialize the nodes, assigning each sorted entry its
0-based position as `index`.  After the filter the embedding is always
present; `getD` extracts it. -/
def graphNodes (entries : List Entry) : List Node :=
  (sortedEntries entries).enum.map fun p =>
    { id := p.2.id
      title := p.2.title
      content := p.2.content
      createdAt := p.2.created_at
      embedding := p.2.embedding.getD []
      index := p.1 }

/-- The inner loop of lines 62-78: for a fixed node `n` (= `nodes[i]`),
scan the later nodes `m` (= `nodes[j]`, `j > i`) in order and push a link
exactly when `similarity >= minSimilarity`. -/
noncomputable def linksFrom (minSimilarity : ℝ) (n : Node) (rest : List Node) : List Link :=
  rest.filterMap fun m =>
    if minSimilarity ≤ cosineSimilarity (some n.embedding) (some m.embedding) then
      some { source := n.id, target := m.id
             similarity := cosineSimilarity (some n.embedding) (some m.embedding)
             value := cosineSimilarity (some n.embedding) (some m.embedding) }
    else none

/-- The outer loop of lines 62-78: the nested `for i` / `for j > i` loops
enumerate, for each node in list order, its pairs with all later nodes. -/
noncomputable def buildLinks (minSimilarity : ℝ) : List Node → List Link
  | [] => []
  | n :: rest => linksFrom minSimilarity n rest ++ buildLinks minSimilarity rest

/-- The result shape `{nodes, links}` of `buildKnowledgeGraph`. -/
structure Graph where
  nodes : List Node
  links : List Link

/-- Embedding of `buildKnowledgeGraph` (`src/lib/graphUtils.js` lines
39-84).  The JS default for `minSimilarity` is `0.4`; the parameter is
explicit here. -/
noncomputable def buildKnowledgeGraph (entries : List Entry) (minSimilarity : ℝ) : Graph :=
  { nodes := graphNodes entries
    links := buildLinks minSimilarity (graphNodes entries) }

/-- The strength tier of a link (spec §3, and the
`strength?: 'strong' | 'medium' | 'weak'` field of `GraphLink` in
`src/components/KnowledgeGraph.tsx`). -/
inductive Strength where
  | strong
  | medium
  | weak
deriving DecidableEq

/-- Modelled from the spec: the repository declares `strength` on
`GraphLink` and renders it in `src/components/KnowledgeGraph.tsx`, but the
code assigning strength tiers (the spec's LinkClassifier, §4.3) is not
among the source files.  Per §4.3: `similarity >= highCut` gives strong,
`lowCut <= similarity < highCut` gives medium, otherwise weak; weak links
are additionally marked for dashed (non-solid) rendering. -/
noncomputable def classify (highCut lowCut similarity : ℝ) : Strength × Bool :=
  if highCut ≤ similarity then (Strength.strong, false)
  else if lowCut ≤ similarity then (Strength.medium, false)
  else (Strength.weak, true)

/-- A link together with its presentation fields, matching the `GraphLink`
interface of `src/components/KnowledgeGraph.tsx` (lines 28-34). -/
structure StyledLink where
  source : EntryKey
  target : EntryKey
  similarity : ℝ
  value : ℝ
  strength : Strength
  isDotted : Bool

/-- Modelled from the spec: GraphBuilder invokes LinkClassifier for every
pair accepted by the similarity threshold (§2), so the classified build is
`buildKnowledgeGraph` with the classifier output attached to each emitted
link (§4.2-§4.3, output shape of §6). -/
noncomputable def buildKnowledgeGraphClassified (entries : List Entry)
    (minSimilarity highCut lowCut : ℝ) : List Node × List StyledLink :=
  let g := buildKnowledgeGraph entries minSimilarity
  (g.nodes, g.links.map fun l =>
    { source := l.source
      target := l.target
      similarity := l.similarity
      value := l.value
      strength := (classify highCut lowCut l.similarity).1
      isDotted := (classify highCut lowCut l.similarity).2 })

/-- The cache key of `fetchSimilarityExplanation`
(`src/components/KnowledgeGraph.tsx` line 104):
`[sourceId, targetId].sort().join('-')`, i.e. the two ids in ascending
order joined with the character `-`. -/
def cacheKey (sourceId targetId : EntryKey) : EntryKey :=
  min sourceId targetId ++ '-' :: max sourceId targetId

/-- The `explanationCache` ref (line 56): a `Map<string, string>`,
modelled as an association list whose lookup takes the first match. -/
abbrev ExplanationCache := List (EntryKey × List Char)

/-- Lookup in the modelled `Map` (both `has` and `get`). -/
def findCached (cache : ExplanationCache) (k : EntryKey) : Option (List Char) :=
  match cache with
  | [] => none
  | (k', v) :: rest => if k' = k then some v else findCached rest k

/-- Outcome of the cache-consultation prefix of
`fetchSimilarityExplanation`: `hit` is the early return of the cached
text (lines 107-113, no fetch performed); `miss` means control reaches
the `fetch` call (line 119), i.e. the fetcher is invoked. -/
inductive LookupOutcome where
  | hit (explanation : List Char)
  | miss
deriving DecidableEq

/-- Lines 103-113: compute the cache key, and if the map holds a truthy
(` ≠ "" `) value for it, return that value without fetching; otherwise
fall through to the network fetch. -/
def checkCache (cache : ExplanationCache) (sourceId targetId : EntryKey) : LookupOutcome :=
  match findCached cache (cacheKey sourceId targetId) with
  | some cachedExplanation =>
    if cachedExplanation ≠ [] then LookupOutcome.hit cachedExplanation else LookupOutcome.miss
  | none => LookupOutcome.miss

/-- Line 134: `result.explanation || 'Unable to generate explanation.'`.
`none` models an absent field; the empty string is falsy in JS, so it also
selects the fallback text. -/
def storedText (respExplanation : Option (List Char)) : List Char :=
  match respExplanation with
  | some t => if t ≠ [] then t else "Unable to generate explanation.".toList
  | none => "Unable to generate explanation.".toList

/-- Lines 131-138, the success continuation after `await`: cache the
explanation under the canonical key and deliver it to the caller. -/
def onFetchSuccess (cache : ExplanationCache) (sourceId targetId : EntryKey)
    (respExplanation : Option (List Char)) : ExplanationCache × List Char :=
  let explanationText := storedText respExplanation
  ((cacheKey sourceId targetId, explanationText) :: cache, explanationText)

/-- Lines 140-145, the `catch` block: the cache is left untouched and the
caller is shown `Error: ${error.message || 'Failed to load explanation'}`. -/
def onFetchFailure (cache : ExplanationCache) (message : List Char) :
    ExplanationCache × List Char :=
  (cache,
    "Error: ".toList ++ (if message ≠ [] then message else "Failed to load explanation".toList))

/-- Model of two concurrent `fetchSimilarityExplanation` calls for the
pair `(x, y)` and `(y, x)` issued before either fetch resolves.  The cache
write (line 137) happens only in the continuation after `await fetch`, so
both calls run their cache check (lines 103-113) against the same prior
cache state; this counts how many times control reaches the `fetch` call
(i.e. how often the fetcher is invoked) in that interleaving. -/
def concurrentFetchInvocations (cache : ExplanationCache) (x y : EntryKey) : ℕ :=
  (match checkCache cache x y with
   | LookupOutcome.miss => 1
   | LookupOutcome.hit _ => 0) +
  (match checkCache cache y x with
   | LookupOutcome.miss => 1
   | LookupOutcome.hit _ => 0)

theorem dotProduct_nil (w : List ℝ) : dotProduct [] w = 0 := by
  simp [dotProduct]

theorem dotProduct_nil_right (v : List ℝ) : dotProduct v [] = 0 := by
  simp [dotProduct]

theorem dotProduct_cons (a b : ℝ) (v w : List ℝ) :
    dotProduct (a :: v) (b :: w) = a * b + dotProduct v w := by
  simp [dotProduct]

theorem dotProduct_self_nonneg (v : List ℝ) : 0 ≤ dotProduct v v := by
  induction v with
  | nil => simp [dotProduct_nil]
  | cons a v ih =>
    rw [dotProduct_cons]
    nlinarith [mul_self_nonneg a]

/-- Cauchy-Schwarz for the list dot product. -/
theorem dotProduct_sq_le (v : List ℝ) :
    ∀ w : List ℝ, dotProduct v w ^ 2 ≤ dotProduct v v * dotProduct w w := by
  induction v with
  | nil =>
    intro w
    simp [dotProduct_nil]
  | cons a v ih =>
    intro w
    cases w with
    | nil => simp [dotProduct_nil_right]
    | cons b w =>
      rw [dotProduct_cons, dotProduct_cons, dotProduct_cons]
      have h := ih w
      have hn1 : 0 ≤ dotProduct v v := dotProduct_self_nonneg v
      have hn2 : 0 ≤ dotProduct w w := dotProduct_self_nonneg w
      set d := dotProduct v w with hd
      set n1 := dotProduct v v with hn1d
      set n2 := dotProduct w w with hn2d
      rcases eq_or_lt_of_le hn1 with h0 | hpos
      · have hdz : d = 0 := by nlinarith [sq_nonneg d]
        rw [hdz, ← h0]
        nlinarith [mul_nonneg (mul_self_nonneg a) hn2]
      · nlinarith [sq_nonneg (a * d - b * n1), mul_nonneg (sq_nonneg a) (sub_nonneg.mpr h),
          mul_pos hpos hpos]

/-- The cosine similarity always lies in `[-1, 1]`. -/
theorem cosineSimilarity_bounds (vec1 vec2 : Option (List ℝ)) :
    -1 ≤ cosineSimilarity vec1 vec2 ∧ cosineSimilarity vec1 vec2 ≤ 1 := by
  match vec1, vec2 with
  | none, _ => simp [cosineSimilarity]
  | some v1, none => simp [cosineSimilarity]
  | some v1, some v2 =>
    rw [cosineSimilarity]
    set den := Real.sqrt (dotProduct v1 v1) * Real.sqrt (dotProduct v2 v2) with hden
    split
    · norm_num
    · split
      · norm_num
      · rename_i hne
        have hnonneg : 0 ≤ den :=
          mul_nonneg (Real.sqrt_nonneg _) (Real.sqrt_nonneg _)
        have hpos : 0 < den := lt_of_le_of_ne hnonneg (Ne.symm hne)
        have hsq : den ^ 2 = dotProduct v1 v1 * dotProduct v2 v2 := by
          rw [hden, mul_pow, Real.sq_sqrt (dotProduct_self_nonneg v1),
            Real.sq_sqrt (dotProduct_self_nonneg v2)]
        have hcs : dotProduct v1 v2 ^ 2 ≤ den ^ 2 := by
          rw [hsq]; exact dotProduct_sq_le v1 v2
        constructor
        · rw [le_div_iff₀ hpos]
          nlinarith [sq_nonneg (dotProduct v1 v2 + den)]
        · rw [div_le_one hpos]
          nlinarith [sq_nonneg (dotProduct v1 v2 - den)]

theorem dotProduct_replicate_zero (n : ℕ) :
    dotProduct (List.replicate n 0) (List.replicate n 0) = 0 := by
  induction n with
  | zero => simp [dotProduct_nil]
  | succ n ih => rw [List.replicate_succ, dotProduct_cons, ih]; ring

/-- C7: the similarity function is total (it is a Lean function into `ℝ`)
and returns exactly `0` whenever either vector is null/missing, the two
lengths differ, or either vector has Euclidean norm exactly zero — in
particular for the all-zero vector paired with anything. -/
theorem cosineSimilarity_degenerate (vec1 vec2 : Option (List ℝ)) :
    ((vec1 = none ∨ vec2 = none) → cosineSimilarity vec1 vec2 = 0) ∧
    (∀ v1 v2 : List ℝ, vec1 = some v1 → vec2 = some v2 → v1.length ≠ v2.length →
      cosineSimilarity vec1 vec2 = 0) ∧
    (∀ v1 v2 : List ℝ, vec1 = some v1 → vec2 = some v2 →
      (Real.sqrt (dotProduct v1 v1) = 0 ∨ Real.sqrt (dotProduct v2 v2) = 0) →
      cosineSimilarity vec1 vec2 = 0) ∧
    (∀ n : ℕ, cosineSimilarity (some (List.replicate n 0)) vec2 = 0) := by
  refine ⟨?_, ?_, ?_, ?_⟩
  · rintro (rfl | rfl)
    · simp [cosineSimilarity]
    · cases vec1 <;> simp [cosineSimilarity]
  · rintro v1 v2 rfl rfl hlen
    simp [cosineSimilarity, hlen]
  · rintro v1 v2 rfl rfl hzero
    have hden : Real.sqrt (dotProduct v1 v1) * Real.sqrt (dotProduct v2 v2) = 0 := by
      rcases hzero with h | h <;> rw [h] <;> ring
    by_cases hlen : v1.length ≠ v2.length
    · rw [cosineSimilarity, if_pos hlen]
    · rw [cosineSimilarity, if_neg hlen, if_pos hden]
  · intro n
    cases vec2 with
    | none => simp [cosineSimilarity]
    | some v2 =>
      by_cases hlen : (List.replicate n (0 : ℝ)).length ≠ v2.length
      · rw [cosineSimilarity, if_pos hlen]
      · rw [cosineSimilarity, if_neg hlen, if_pos
          (by rw [dotProduct_replicate_zero, Real.sqrt_zero, zero_mul])]

/-- Witness for C7: each degenerate case evaluated at a concrete input. -/
theorem cosineSimilarity_degenerate_witness :
    cosineSimilarity none (some [1]) = 0 ∧
    cosineSimilarity (some [1]) (some [1, 2]) = 0 ∧
    cosineSimilarity (some [0, 0]) (some [3, 4]) = 0 ∧
    cosineSimilarity (some (List.replicate 2 0)) (some [3, 4]) = 0 := by
  refine ⟨?_, ?_, ?_, ?_⟩
  · exact (cosineSimilarity_degenerate none (some [1])).1 (Or.inl rfl)
  · exact (cosineSimilarity_degenerate (some [1]) (some [1, 2])).2.1 [1] [1, 2] rfl rfl
      (by norm_num)
  · refine (cosineSimilarity_degenerate (some [0, 0]) (some [3, 4])).2.2.1 [0, 0] [3, 4]
      rfl rfl (Or.inl ?_)
    have : dotProduct [(0 : ℝ), 0] [0, 0] = 0 := by
      rw [dotProduct_cons, dotProduct_cons, dotProduct_nil]; ring
    rw [this, Real.sqrt_zero]
  · exact (cosineSimilarity_degenerate (some (List.replicate 2 0)) (some [3, 4])).2.2.2 2

theorem mergeSort_entry_sorted (l : List Entry) :
    List.Sorted (fun a b : Entry => a.id ≤ b.id) (l.mergeSort entryLE) := by
  have htrans : ∀ a b c : Entry, entryLE a b = true → entryLE b c = true →
      entryLE a c = true := by
    intro a b c hab hbc
    simp only [entryLE, decide_eq_true_eq] at hab hbc ⊢
    exact le_trans hab hbc
  have htotal : ∀ a b : Entry, (entryLE a b || entryLE b a) = true := by
    intro a b
    simp only [entryLE, Bool.or_eq_true, decide_eq_true_eq]
    exact le_total a.id b.id
  have h := @List.sorted_mergeSort Entry entryLE htrans htotal l
  exact h.imp fun hab => by simpa [entryLE, decide_eq_true_eq] using hab

theorem sortedEntries_sorted (entries : List Entry) :
    List.Sorted (fun a b : Entry => a.id ≤ b.id) (sortedEntries entries) :=
  mergeSort_entry_sorted _

theorem sortedEntries_perm (entries : List Entry) :
    (sortedEntries entries).Perm (entries.filter fun e => e.embedding.isSome) :=
  List.mergeSort_perm _ _

/-- Two lists that are permutations of each other, both sorted by `id`,
with no duplicate `id`s, are equal (the determinism core of spec §4.2). -/
theorem eq_of_perm_sorted_nodup {l₁ l₂ : List Entry} (hp : l₁.Perm l₂)
    (hs₁ : List.Sorted (fun a b : Entry => a.id ≤ b.id) l₁)
    (hs₂ : List.Sorted (fun a b : Entry => a.id ≤ b.id) l₂)
    (hn : (l₁.map Entry.id).Nodup) : l₁ = l₂ := by
  induction l₁ generalizing l₂ with
  | nil => exact (hp.symm.eq_nil).symm
  | cons a t₁ ih =>
    cases l₂ with
    | nil => exact absurd hp.eq_nil (by simp)
    | cons b t₂ =>
      have hab : a = b := by
        by_contra hne
        have hbmem : b ∈ a :: t₁ := hp.symm.subset (List.mem_cons_self b t₂)
        have hamem : a ∈ b :: t₂ := hp.subset (List.mem_cons_self a t₁)
        have hb : b ∈ t₁ := by
          rcases List.mem_cons.mp hbmem with h | h
          · exact absurd h.symm hne
          · exact h
        have ha : a ∈ t₂ := by
          rcases List.mem_cons.mp hamem with h | h
          · exact absurd h hne
          · exact h
        have h1 : a.id ≤ b.id := List.rel_of_sorted_cons hs₁ b hb
        have h2 : b.id ≤ a.id := List.rel_of_sorted_cons hs₂ a ha
        exact hne (List.inj_on_of_nodup_map hn (List.mem_cons_self a t₁)
          (List.mem_cons_of_mem a hb) (le_antisymm h1 h2))
      subst hab
      have ht : t₁.Perm t₂ := hp.cons_inv
      have hnt : (t₁.map Entry.id).Nodup := by
        rw [List.map_cons] at hn
        exact hn.of_cons
      rw [ih ht hs₁.of_cons hs₂.of_cons hnt]

theorem sortedEntries_nodup_keys (entries : List Entry)
    (hn : (entries.map Entry.id).Nodup) :
    ((sortedEntries entries).map Entry.id).Nodup := by
  have hsub : List.Sublist ((entries.filter fun e => e.embedding.isSome).map Entry.id)
      (entries.map Entry.id) :=
    (List.filter_sublist entries).map Entry.id
  have h1 : ((entries.filter fun e => e.embedding.isSome).map Entry.id).Nodup :=
    List.Sublist.nodup hsub hn
  exact (((sortedEntries_perm entries).map Entry.id).nodup_iff).mpr h1

/-- C2: building the graph from any permutation of the entry collection
yields the same ordered node sequence and the same ordered link sequence
(identifiers are unique per the spec's data model, §3). -/
theorem buildKnowledgeGraph_perm_invariant (es1 es2 : List Entry) (m : ℝ)
    (hperm : es1.Perm es2) (hn : (es1.map Entry.id).Nodup) :
    buildKnowledgeGraph es1 m = buildKnowledgeGraph es2 m := by
  have hsorted : sortedEntries es1 = sortedEntries es2 := by
    apply eq_of_perm_sorted_nodup
    · exact (sortedEntries_perm es1).trans
        ((hperm.filter _).trans (sortedEntries_perm es2).symm)
    · exact sortedEntries_sorted es1
    · exact sortedEntries_sorted es2
    · exact sortedEntries_nodup_keys es1 hn
  unfold buildKnowledgeGraph graphNodes
  rw [hsorted]

/-- Witness for C2: a two-entry collection and its transposition. -/
theorem buildKnowledgeGraph_perm_invariant_witness :
    buildKnowledgeGraph
        [⟨['B'], [], [], [], some [1, 0]⟩, ⟨['A'], [], [], [], some [0, 1]⟩] (1 / 2) =
      buildKnowledgeGraph
        [⟨['A'], [], [], [], some [0, 1]⟩, ⟨['B'], [], [], [], some [1, 0]⟩] (1 / 2) :=
  buildKnowledgeGraph_perm_invariant _ _ _ (List.Perm.swap _ _ _) (by decide)

theorem graphNodes_map_index (entries : List Entry) :
    (graphNodes entries).map Node.index = List.range (graphNodes entries).length := by
  unfold graphNodes
  rw [List.map_map, List.length_map]
  change List.map Prod.fst (sortedEntries entries).enum = _
  rw [List.enum_map_fst, List.enum_length]

theorem graphNodes_map_id (entries : List Entry) :
    (graphNodes entries).map Node.id = (sortedEntries entries).map Entry.id := by
  unfold graphNodes
  rw [List.map_map]
  change List.map (Entry.id ∘ Prod.snd) _ = _
  rw [← List.map_map, List.enum_map_snd]

/-- C6: the node sequence is exactly the valid-embedding entries sorted by
identifier in ascending order, each carrying its 0-based position as
`index`, with no duplicate identifiers; an entry with an absent embedding
never appears among the nodes. -/
theorem buildKnowledgeGraph_nodes_spec (es : List Entry) (m : ℝ)
    (hn : (es.map Entry.id).Nodup) :
    (buildKnowledgeGraph es m).nodes.map Node.index =
        List.range (buildKnowledgeGraph es m).nodes.length ∧
    ((buildKnowledgeGraph es m).nodes.map Node.id).Perm
      ((es.filter fun e => e.embedding.isSome).map Entry.id) ∧
    List.Sorted (· ≤ ·) ((buildKnowledgeGraph es m).nodes.map Node.id) ∧
    ((buildKnowledgeGraph es m).nodes.map Node.id).Nodup ∧
    ∀ e ∈ es, e.embedding = none →
      ∀ nd ∈ (buildKnowledgeGraph es m).nodes, nd.id ≠ e.id := by
  have hnodes : (buildKnowledgeGraph es m).nodes = graphNodes es := rfl
  have hperm : ((buildKnowledgeGraph es m).nodes.map Node.id).Perm
      ((es.filter fun e => e.embedding.isSome).map Entry.id) := by
    rw [hnodes, graphNodes_map_id]
    exact (sortedEntries_perm es).map Entry.id
  refine ⟨by rw [hnodes]; exact graphNodes_map_index es, hperm, ?_, ?_, ?_⟩
  · rw [hnodes, graphNodes_map_id]
    exact List.Pairwise.map Entry.id (fun a b h => h) (sortedEntries_sorted es)
  · rw [hnodes, graphNodes_map_id]
    exact sortedEntries_nodup_keys es hn
  · intro e he hnone nd hnd heq
    have hmem : nd.id ∈ (es.filter fun e => e.embedding.isSome).map Entry.id :=
      hperm.subset (List.mem_map_of_mem Node.id hnd)
    rcases List.mem_map.mp hmem with ⟨f, hf, hfid⟩
    have hfes : f ∈ es := List.mem_of_mem_filter hf
    have hfsome : f.embedding.isSome := by
      have := List.of_mem_filter hf
      simpa using this
    have : f = e := List.inj_on_of_nodup_map hn hfes he (by rw [hfid, heq])
    rw [this, hnone] at hfsome
    simp at hfsome

/-- Witness for C6 at a concrete collection: one entry lacks an embedding
and is excluded, the other two are sorted and indexed. -/
theorem buildKnowledgeGraph_nodes_spec_witness :
    (([⟨['B'], [], [], [], some [1, 0]⟩, ⟨['A'], [], [], [], none⟩,
        ⟨['C'], [], [], [], some [0, 1]⟩] : List Entry).map Entry.id).Nodup ∧
    ∀ e ∈ ([⟨['B'], [], [], [], some [1, 0]⟩, ⟨['A'], [], [], [], none⟩,
        ⟨['C'], [], [], [], some [0, 1]⟩] : List Entry), e.embedding = none →
      ∀ nd ∈ (buildKnowledgeGraph
        [⟨['B'], [], [], [], some [1, 0]⟩, ⟨['A'], [], [], [], none⟩,
          ⟨['C'], [], [], [], some [0, 1]⟩] (1 / 2)).nodes, nd.id ≠ e.id :=
  ⟨by decide,
    (buildKnowledgeGraph_nodes_spec _ (1 / 2) (by decide)).2.2.2.2⟩

theorem sortedEntries_eq_self {es : List Entry}
    (hs : List.Sorted (fun a b : Entry => a.id ≤ b.id) es)
    (hn : (es.map Entry.id).Nodup)
    (hv : ∀ e ∈ es, e.embedding.isSome) : sortedEntries es = es := by
  unfold sortedEntries
  rw [List.filter_eq_self.mpr (fun e he => by simpa using hv e he)]
  exact eq_of_perm_sorted_nodup (List.mergeSort_perm es entryLE)
    (mergeSort_entry_sorted es) hs
    ((((List.mergeSort_perm es entryLE).map Entry.id).nodup_iff).mpr hn)

theorem graphNodes_eq_of_sorted {es : List Entry}
    (hs : List.Sorted (fun a b : Entry => a.id ≤ b.id) es)
    (hn : (es.map Entry.id).Nodup)
    (hv : ∀ e ∈ es, e.embedding.isSome) :
    graphNodes es = es.enum.map fun p =>
      { id := p.2.id
        title := p.2.title
        content := p.2.content
        createdAt := p.2.created_at
        embedding := p.2.embedding.getD []
        index := p.1 } := by
  unfold graphNodes
  rw [sortedEntries_eq_self hs hn hv]

theorem buildLinks_eq_nil_of_one_lt {m : ℝ} (hm : 1 < m) :
    ∀ ns : List Node, buildLinks m ns = [] := by
  intro ns
  induction ns with
  | nil => rfl
  | cons n rest ih =>
    simp only [buildLinks, ih, List.append_nil]
    refine List.filterMap_eq_nil_iff.mpr fun nd _ => ?_
    rw [if_neg]
    intro hle
    exact absurd (le_trans hle (cosineSimilarity_bounds _ _).2) (not_le.mpr hm)

theorem exists_link_of_le_neg_one {m : ℝ} (hm : m ≤ -1) :
    ∀ (ns : List Node) (a b : Node), a ∈ ns → b ∈ ns → a ≠ b →
      ∃ l ∈ buildLinks m ns,
        (l.source = a.id ∧ l.target = b.id) ∨ (l.source = b.id ∧ l.target = a.id) := by
  have hcond : ∀ x y : Node,
      m ≤ cosineSimilarity (some x.embedding) (some y.embedding) :=
    fun x y => le_trans hm (cosineSimilarity_bounds _ _).1
  intro ns
  induction ns with
  | nil => intro a b ha; simp at ha
  | cons n rest ih =>
    intro a b ha hb hab
    simp only [buildLinks]
    rcases List.mem_cons.mp ha with rfl | ha'
    · rcases List.mem_cons.mp hb with rfl | hb'
      · exact absurd rfl hab
      · refine ⟨_, List.mem_append_left _
          (List.mem_filterMap.mpr ⟨b, hb', if_pos (hcond a b)⟩), Or.inl ⟨rfl, rfl⟩⟩
    · rcases List.mem_cons.mp hb with rfl | hb'
      · refine ⟨_, List.mem_append_left _
          (List.mem_filterMap.mpr ⟨a, ha', if_pos (hcond b a)⟩), Or.inr ⟨rfl, rfl⟩⟩
      · rcases ih a b ha' hb' hab with ⟨l, hl, hor⟩
        exact ⟨l, List.mem_append_right _ hl, hor⟩

/-- C5: a threshold above `1` yields no links at all, and a threshold at
or below `-1` links every pair of distinct nodes (all nodes have valid
embeddings, since invalid ones are filtered out before node creation). -/
theorem buildKnowledgeGraph_threshold (es : List Entry) (m : ℝ) :
    (1 < m → (buildKnowledgeGraph es m).links = []) ∧
    (m ≤ -1 → ∀ a b : Node, a ∈ (buildKnowledgeGraph es m).nodes →
      b ∈ (buildKnowledgeGraph es m).nodes → a ≠ b →
      ∃ l ∈ (buildKnowledgeGraph es m).links,
        (l.source = a.id ∧ l.target = b.id) ∨ (l.source = b.id ∧ l.target = a.id)) := by
  constructor
  · intro hm
    exact buildLinks_eq_nil_of_one_lt hm _
  · intro hm a b ha hb hab
    exact exists_link_of_le_neg_one hm _ a b ha hb hab

/-- Witness for C5: with threshold `2` the two-entry graph has no links;
with threshold `-1` its two nodes are linked. -/
theorem buildKnowledgeGraph_threshold_witness :
    (buildKnowledgeGraph
        [⟨['A'], [], [], [], some [1, 0]⟩, ⟨['B'], [], [], [], some [0, 1]⟩] 2).links = [] ∧
    ∃ l ∈ (buildKnowledgeGraph
        [⟨['A'], [], [], [], some [1, 0]⟩, ⟨['B'], [], [], [], some [0, 1]⟩] (-1)).links,
      (l.source = ['A'] ∧ l.target = ['B']) ∨ (l.source = ['B'] ∧ l.target = ['A']) := by
  constructor
  · exact (buildKnowledgeGraph_threshold _ 2).1 (by norm_num)
  · have hnodes : (buildKnowledgeGraph
        [⟨['A'], [], [], [], some [1, 0]⟩, ⟨['B'], [], [], [], some [0, 1]⟩] (-1)).nodes =
        [⟨['A'], [], [], [], [1, 0], 0⟩, ⟨['B'], [], [], [], [0, 1], 1⟩] := by
      show graphNodes _ = _
      rw [graphNodes_eq_of_sorted]
      · rfl
      · simp only [List.sorted_cons, List.mem_singleton, List.sorted_nil, and_true,
          List.not_mem_nil, false_implies, implies_true]
        intro b hb
        rw [hb]
        decide
      · decide
      · intro e he
        rcases List.mem_cons.mp he with rfl | he'
        · rfl
        · rcases List.mem_singleton.mp he' with rfl
          rfl
    have h := (buildKnowledgeGraph_threshold _ (-1)).2 le_rfl
      ⟨['A'], [], [], [], [1, 0], 0⟩ ⟨['B'], [], [], [], [0, 1], 1⟩
      (by rw [hnodes]; exact List.mem_cons_self _ _)
      (by rw [hnodes]; exact List.mem_cons_of_mem _ (List.mem_singleton.mpr rfl))
      (by
        intro hcontra
        have := congrArg Node.id hcontra
        exact absurd this (by decide))
    exact h

theorem mem_linksFrom {m : ℝ} {n : Node} {rest : List Node} {l : Link}
    (h : l ∈ linksFrom m n rest) :
    l.source = n.id ∧ l.target ∈ rest.map Node.id := by
  rcases List.mem_filterMap.mp h with ⟨nd, hnd, hsome⟩
  split at hsome
  · cases hsome
    exact ⟨rfl, List.mem_map_of_mem Node.id hnd⟩
  · exact absurd hsome (by simp)

theorem mem_buildLinks {m : ℝ} :
    ∀ {ns : List Node} {l : Link}, l ∈ buildLinks m ns →
      l.source ∈ ns.map Node.id ∧ l.target ∈ ns.map Node.id := by
  intro ns
  induction ns with
  | nil => intro l h; simp [buildLinks] at h
  | cons n rest ih =>
    intro l h
    simp only [buildLinks] at h
    rw [List.map_cons]
    rcases List.mem_append.mp h with h1 | h2
    · rcases mem_linksFrom h1 with ⟨hs, ht⟩
      exact ⟨by rw [hs]; exact List.mem_cons_self _ _, List.mem_cons_of_mem _ ht⟩
    · rcases ih h2 with ⟨hs, ht⟩
      exact ⟨List.mem_cons_of_mem _ hs, List.mem_cons_of_mem _ ht⟩

theorem buildLinks_invariants {m : ℝ} :
    ∀ {ns : List Node}, (ns.map Node.id).Nodup →
      (∀ l ∈ buildLinks m ns, l.source ≠ l.target) ∧
      (buildLinks m ns).Pairwise (fun l1 l2 =>
        ¬((l1.source = l2.source ∧ l1.target = l2.target) ∨
          (l1.source = l2.target ∧ l1.target = l2.source))) := by
  intro ns
  induction ns with
  | nil =>
    intro _
    exact ⟨fun l h => by simp [buildLinks] at h, by simp [buildLinks]⟩
  | cons n rest ih =>
    intro hnd
    rw [List.map_cons, List.nodup_cons] at hnd
    have hnotin : n.id ∉ rest.map Node.id := hnd.1
    have hrest : (rest.map Node.id).Nodup := hnd.2
    obtain ⟨ih1, ih2⟩ := ih hrest
    constructor
    · intro l hl
      simp only [buildLinks] at hl
      rcases List.mem_append.mp hl with h1 | h2
      · rcases mem_linksFrom h1 with ⟨hs, ht⟩
        intro heq
        rw [← heq, hs] at ht
        exact hnotin ht
      · exact ih1 l h2
    · simp only [buildLinks]
      rw [List.pairwise_append]
      refine ⟨?_, ih2, ?_⟩
      · unfold linksFrom
        rw [List.pairwise_filterMap]
        have hpw : rest.Pairwise (fun a b : Node => a.id ≠ b.id) :=
          List.pairwise_map.mp hrest
        refine hpw.imp_of_mem ?_
        intro a b ha hb hab x hx y hy
        split at hx
        · cases hx
          split at hy
          · cases hy
            rintro (⟨h1, h2⟩ | ⟨h1, h2⟩)
            · exact hab h2
            · have hb' : b.id ∈ List.map Node.id rest := List.mem_map_of_mem Node.id hb
              rw [← show n.id = b.id from h1] at hb'
              exact hnotin hb'
          · exact absurd hy (by simp)
        · exact absurd hx (by simp)
      · intro x hx y hy
        rcases mem_linksFrom hx with ⟨hxs, hxt⟩
        rcases mem_buildLinks hy with ⟨hys, hyt⟩
        rintro (⟨h1, h2⟩ | ⟨h1, h2⟩)
        · rw [← h1, hxs] at hys
          exact hnotin hys
        · rw [← h1, hxs] at hyt
          exact hnotin hyt

/-- C9: between any two distinct node ids there is at most one link (in
either orientation), and no link connects a node to itself. -/
theorem buildKnowledgeGraph_link_invariants (es : List Entry) (m : ℝ)
    (hn : (es.map Entry.id).Nodup) :
    (∀ l ∈ (buildKnowledgeGraph es m).links, l.source ≠ l.target) ∧
    (buildKnowledgeGraph es m).links.Pairwise (fun l1 l2 =>
      ¬((l1.source = l2.source ∧ l1.target = l2.target) ∨
        (l1.source = l2.target ∧ l1.target = l2.source))) := by
  have hnodes : ((graphNodes es).map Node.id).Nodup := by
    rw [graphNodes_map_id]
    exact sortedEntries_nodup_keys es hn
  exact buildLinks_invariants hnodes

/-- Witness for C9 at a concrete two-entry collection. -/
theorem buildKnowledgeGraph_link_invariants_witness :
    (([⟨['A'], [], [], [], some [1, 0]⟩, ⟨['B'], [], [], [], some [0, 1]⟩] :
        List Entry).map Entry.id).Nodup ∧
    ∀ l ∈ (buildKnowledgeGraph
        [⟨['A'], [], [], [], some [1, 0]⟩, ⟨['B'], [], [], [], some [0, 1]⟩] (1 / 2)).links,
      l.source ≠ l.target :=
  ⟨by decide, (buildKnowledgeGraph_link_invariants _ (1 / 2) (by decide)).1⟩

theorem cacheKey_comm (x y : EntryKey) : cacheKey x y = cacheKey y x := by
  unfold cacheKey
  rw [min_comm, max_comm]

theorem storedText_ne_nil (resp : Option (List Char)) : storedText resp ≠ [] := by
  cases resp with
  | none => decide
  | some t =>
    show (if t ≠ [] then t else "Unable to generate explanation.".toList) ≠ []
    split
    · assumption
    · decide

/-- C8: once a fetch for `(x, y)` has resolved and its value has been
stored, a later call with the ids in either order hits the same cache slot
and returns the stored value without reaching the fetch call. -/
theorem cache_hit_after_store (cache : ExplanationCache) (x y : EntryKey)
    (resp : Option (List Char)) :
    checkCache (onFetchSuccess cache x y resp).1 y x =
      LookupOutcome.hit (storedText resp) ∧
    (onFetchSuccess cache x y resp).2 = storedText resp := by
  refine ⟨?_, rfl⟩
  unfold checkCache onFetchSuccess
  rw [cacheKey_comm y x]
  simp [findCached, storedText_ne_nil resp]

/-- C3 counterexample: two concurrent calls for the pair `("A", "B")`
(in either argument order) that both check the untouched cache before any
fetch has resolved each miss and reach the fetch call, so the fetcher is
invoked twice — not exactly once as claimed. -/
theorem concurrent_fetch_counterexample :
    concurrentFetchInvocations [] ['A'] ['B'] = 2 ∧
    concurrentFetchInvocations [] ['A'] ['B'] ≠ 1 := by
  decide

/-- C3 amended: if `getOrFetch(x, y)` and `getOrFetch(y, x)` both run
their cache check before any fetch for the canonical pair has resolved
(the canonical key is still absent), the fetcher is invoked once per
caller — twice in total; the code performs no in-flight deduplication,
only resolved results are deduplicated. -/
theorem concurrent_fetch_twice (cache : ExplanationCache) (x y : EntryKey)
    (h : findCached cache (cacheKey x y) = none) :
    concurrentFetchInvocations cache x y = 2 := by
  unfold concurrentFetchInvocations checkCache
  rw [cacheKey_comm y x, h]
  rfl

/-- Witness for the amended C3. -/
theorem concurrent_fetch_twice_witness :
    findCached [] (cacheKey ['A'] ['B']) = none ∧
    concurrentFetchInvocations [] ['A'] ['B'] = 2 :=
  ⟨rfl, concurrent_fetch_twice [] ['A'] ['B'] rfl⟩

/-- C4 counterexample: after a failed fetch the cache is unchanged — no
fallback message is stored for the canonical pair — so a subsequent
request for the same pair misses the cache and reaches the fetch call
again; moreover the message delivered to the caller embeds the raw error
message. -/
theorem failure_not_cached_counterexample :
    (onFetchFailure [] "boom".toList).1 = [] ∧
    checkCache (onFetchFailure [] "boom".toList).1 ['A'] ['B'] = LookupOutcome.miss ∧
    (onFetchFailure [] "boom".toList).2 = "Error: boom".toList := by
  refine ⟨rfl, rfl, ?_⟩
  decide

/-- C4 amended: a fetch failure is non-fatal — the caller is shown
`Error: <message>` (with a default when the message is empty) — but
nothing is stored in the explanation cache: the cache is exactly as
before, so a subsequent request for the same pair behaves as if the
failed fetch had never happened (and invokes the fetcher again on a
miss). -/
theorem fetch_failure_leaves_cache (cache : ExplanationCache) (x y : EntryKey)
    (message : List Char) :
    (onFetchFailure cache message).1 = cache ∧
    checkCache (onFetchFailure cache message).1 x y = checkCache cache x y ∧
    (onFetchFailure cache message).2 =
      "Error: ".toList ++
        (if message ≠ [] then message else "Failed to load explanation".toList) :=
  ⟨rfl, rfl, rfl⟩

/-- Splitting at a separator character is unambiguous when neither prefix
contains the separator. -/
theorem append_sep_inj {sep : Char} :
    ∀ {xs1 : List Char} {ys1 xs2 ys2 : List Char}, sep ∉ xs1 → sep ∉ xs2 →
      xs1 ++ sep :: ys1 = xs2 ++ sep :: ys2 → xs1 = xs2 ∧ ys1 = ys2 := by
  intro xs1
  induction xs1 with
  | nil =>
    intro ys1 xs2 ys2 _ h2 heq
    cases xs2 with
    | nil => simpa using heq
    | cons c t =>
      simp only [List.nil_append, List.cons_append, List.cons.injEq] at heq
      exact absurd (by rw [heq.1]; exact List.mem_cons_self c t) h2
  | cons a t ih =>
    intro ys1 xs2 ys2 h1 h2 heq
    cases xs2 with
    | nil =>
      simp only [List.nil_append, List.cons_append, List.cons.injEq] at heq
      exact absurd (by rw [← heq.1]; exact List.mem_cons_self a t) h1
    | cons b u =>
      simp only [List.cons_append, List.cons.injEq] at heq
      obtain ⟨hab, hrest⟩ := heq
      have h1' : sep ∉ t := fun hx => h1 (List.mem_cons_of_mem a hx)
      have h2' : sep ∉ u := fun hx => h2 (List.mem_cons_of_mem b hx)
      obtain ⟨e1, e2⟩ := ih h1' h2' hrest
      exact ⟨by rw [hab, e1], e2⟩

theorem pair_eq_of_min_max {α : Type} [LinearOrder α] {a b c d : α}
    (h1 : min a b = min c d) (h2 : max a b = max c d) :
    (a = c ∧ b = d) ∨ (a = d ∧ b = c) := by
  rcases le_total a b with hab | hab <;> rcases le_total c d with hcd | hcd
  · rw [min_eq_left hab, min_eq_left hcd] at h1
    rw [max_eq_right hab, max_eq_right hcd] at h2
    exact Or.inl ⟨h1, h2⟩
  · rw [min_eq_left hab, min_eq_right hcd] at h1
    rw [max_eq_right hab, max_eq_left hcd] at h2
    exact Or.inr ⟨h1, h2⟩
  · rw [min_eq_right hab, min_eq_left hcd] at h1
    rw [max_eq_left hab, max_eq_right hcd] at h2
    exact Or.inr ⟨h2, h1⟩
  · rw [min_eq_right hab, min_eq_right hcd] at h1
    rw [max_eq_left hab, max_eq_left hcd] at h2
    exact Or.inl ⟨h2, h1⟩

/-- C10: the cache key is injective on unordered pairs of ids free of the
`-` character; without that precondition two different unordered pairs can
share a key — the pairs `{"a-b", "c"}` and `{"a", "b-c"}` both map to the
key `"a-b-c"`. -/
theorem cacheKey_injective_iff_dash_free :
    (∀ a b c d : EntryKey, '-' ∉ a → '-' ∉ b → '-' ∉ c → '-' ∉ d →
      cacheKey a b = cacheKey c d → (a = c ∧ b = d) ∨ (a = d ∧ b = c)) ∧
    (cacheKey ['a', '-', 'b'] ['c'] = cacheKey ['a'] ['b', '-', 'c'] ∧
      ¬((['a', '-', 'b'] = ['a'] ∧ (['c'] : EntryKey) = ['b', '-', 'c']) ∨
        (['a', '-', 'b'] = ['b', '-', 'c'] ∧ (['c'] : EntryKey) = ['a']))) := by
  refine ⟨?_, by decide, by decide⟩
  intro a b c d ha hb hc hd heq
  have hmin1 : '-' ∉ min a b := by
    rcases min_choice a b with h | h <;> rw [h] <;> assumption
  have hmin2 : '-' ∉ min c d := by
    rcases min_choice c d with h | h <;> rw [h] <;> assumption
  unfold cacheKey at heq
  obtain ⟨e1, e2⟩ := append_sep_inj hmin1 hmin2 heq
  exact pair_eq_of_min_max e1 e2

/-- Witness for C10's injectivity half on dash-free ids. -/
theorem cacheKey_injective_witness :
    (('x' : Char) ∉ ([] : List Char) → True) ∧
    (((['x'] : EntryKey) = ['x'] ∧ (['y'] : EntryKey) = ['y']) ∨
      ((['x'] : EntryKey) = ['y'] ∧ (['y'] : EntryKey) = ['x'])) :=
  ⟨fun _ => trivial,
    cacheKey_injective_iff_dash_free.1 ['x'] ['y'] ['x'] ['y']
      (by decide) (by decide) (by decide) (by decide) rfl⟩

theorem dotProduct_three (x y z p q r : ℝ) :
    dotProduct [x, y, z] [p, q, r] = x * p + y * q + z * r := by
  simp [dotProduct]
  ring

/-- Cosine similarity of two unit 3-vectors is their dot product. -/
theorem cosineSimilarity_unit_three (a1 a2 a3 b1 b2 b3 : ℝ)
    (hna : a1 * a1 + a2 * a2 + a3 * a3 = 1)
    (hnb : b1 * b1 + b2 * b2 + b3 * b3 = 1) :
    cosineSimilarity (some [a1, a2, a3]) (some [b1, b2, b3]) =
      a1 * b1 + a2 * b2 + a3 * b3 := by
  rw [cosineSimilarity, if_neg (by simp), dotProduct_three, dotProduct_three,
    dotProduct_three, hna, hnb, Real.sqrt_one, one_mul, if_neg (by norm_num), div_one]

/-- C1: for three entries A, B, C with pairwise similarities 0.82, 0.45 and
0.1, building with `minSimilarity = 0.3`, `highCut = 0.75`, `lowCut = 0.3`
yields exactly the links {A,B} with tier strong and {A,C} with tier
medium, and no link {B,C}; in general every emitted link carries the tier
determined by the cut points. -/
theorem buildKnowledgeGraph_example_scenario
    (tA cA dA tB cB dB tC cC dC : List Char) (vA vB vC : List ℝ)
    (h1 : cosineSimilarity (some vA) (some vB) = 0.82)
    (h2 : cosineSimilarity (some vA) (some vC) = 0.45)
    (h3 : cosineSimilarity (some vB) (some vC) = 0.1) :
    (buildKnowledgeGraphClassified
        [⟨['A'], tA, cA, dA, some vA⟩, ⟨['B'], tB, cB, dB, some vB⟩,
          ⟨['C'], tC, cC, dC, some vC⟩] 0.3 0.75 0.3).2 =
      [⟨['A'], ['B'], 0.82, 0.82, Strength.strong, false⟩,
        ⟨['A'], ['C'], 0.45, 0.45, Strength.medium, false⟩] ∧
    ∀ (es : List Entry) (m hi lo : ℝ),
      ∀ sl ∈ (buildKnowledgeGraphClassified es m hi lo).2,
        (hi ≤ sl.similarity → sl.strength = Strength.strong) ∧
        (lo ≤ sl.similarity → sl.similarity < hi → sl.strength = Strength.medium) ∧
        (sl.similarity < lo → sl.similarity < hi → sl.strength = Strength.weak) := by
  constructor
  · have hsorted : List.Sorted (fun a b : Entry => a.id ≤ b.id)
        ([⟨['A'], tA, cA, dA, some vA⟩, ⟨['B'], tB, cB, dB, some vB⟩,
          ⟨['C'], tC, cC, dC, some vC⟩] : List Entry) := by
      refine List.Pairwise.cons ?_ (List.Pairwise.cons ?_ (List.pairwise_singleton _ _))
      · intro b hb
        rcases List.mem_cons.mp hb with rfl | hb'
        · show (['A'] : List Char) ≤ ['B']
          decide
        · rcases List.mem_singleton.mp hb' with rfl
          show (['A'] : List Char) ≤ ['C']
          decide
      · intro b hb
        rcases List.mem_singleton.mp hb with rfl
        show (['B'] : List Char) ≤ ['C']
        decide
    have hnodup : (([⟨['A'], tA, cA, dA, some vA⟩, ⟨['B'], tB, cB, dB, some vB⟩,
        ⟨['C'], tC, cC, dC, some vC⟩] : List Entry).map Entry.id).Nodup := by
      show ([['A'], ['B'], ['C']] : List (List Char)).Nodup
      decide
    have hvalid : ∀ e ∈ ([⟨['A'], tA, cA, dA, some vA⟩, ⟨['B'], tB, cB, dB, some vB⟩,
        ⟨['C'], tC, cC, dC, some vC⟩] : List Entry), e.embedding.isSome := by
      intro e he
      rcases List.mem_cons.mp he with rfl | he'
      · rfl
      rcases List.mem_cons.mp he' with rfl | he''
      · rfl
      rcases List.mem_singleton.mp he'' with rfl
      rfl
    have hnodes : graphNodes
        [⟨['A'], tA, cA, dA, some vA⟩, ⟨['B'], tB, cB, dB, some vB⟩,
          ⟨['C'], tC, cC, dC, some vC⟩] =
        [⟨['A'], tA, cA, dA, vA, 0⟩, ⟨['B'], tB, cB, dB, vB, 1⟩,
          ⟨['C'], tC, cC, dC, vC, 2⟩] := by
      rw [graphNodes_eq_of_sorted hsorted hnodup hvalid]
      rfl
    have hlinks : (buildKnowledgeGraph
        [⟨['A'], tA, cA, dA, some vA⟩, ⟨['B'], tB, cB, dB, some vB⟩,
          ⟨['C'], tC, cC, dC, some vC⟩] 0.3).links =
        [⟨['A'], ['B'], 0.82, 0.82⟩, ⟨['A'], ['C'], 0.45, 0.45⟩] := by
      show buildLinks 0.3 (graphNodes _) = _
      rw [hnodes]
      simp only [buildLinks, linksFrom, List.filterMap_cons, List.filterMap_nil,
        List.append_nil, h1, h2, h3]
      norm_num
    simp only [buildKnowledgeGraphClassified]
    rw [hlinks]
    simp only [List.map_cons, List.map_nil, classify]
    norm_num
  · intro es m hi lo sl hsl
    simp only [buildKnowledgeGraphClassified] at hsl
    rcases List.mem_map.mp hsl with ⟨l, _, rfl⟩
    refine ⟨?_, ?_, ?_⟩
    · intro hhi
      show (classify hi lo l.similarity).1 = Strength.strong
      unfold classify
      rw [if_pos hhi]
    · intro hlo hlt
      show (classify hi lo l.similarity).1 = Strength.medium
      unfold classify
      rw [if_neg (not_le.mpr hlt), if_pos hlo]
    · intro hlt1 hlt2
      show (classify hi lo l.similarity).1 = Strength.weak
      unfold classify
      rw [if_neg (not_le.mpr hlt2), if_neg (not_le.mpr hlt1)]

theorem witness_b_norm :
    (41 / 50 : ℝ) * (41 / 50) + Real.sqrt (819 / 2500) * Real.sqrt (819 / 2500) + 0 * 0 = 1 := by
  rw [Real.mul_self_sqrt (by norm_num : (0 : ℝ) ≤ 819 / 2500)]
  norm_num

theorem witness_c_norm :
    (9 / 20 : ℝ) * (9 / 20) +
      -(269 / 1000) / Real.sqrt (819 / 2500) * (-(269 / 1000) / Real.sqrt (819 / 2500)) +
      Real.sqrt (1889 / 3276) * Real.sqrt (1889 / 3276) = 1 := by
  have hs2 : Real.sqrt (819 / 2500) * Real.sqrt (819 / 2500) = 819 / 2500 :=
    Real.mul_self_sqrt (by norm_num)
  have ht : -(269 / 1000) / Real.sqrt (819 / 2500) *
      (-(269 / 1000) / Real.sqrt (819 / 2500)) =
      -(269 / 1000) * -(269 / 1000) / (819 / 2500) := by
    rw [div_mul_div_comm, hs2]
  rw [ht, Real.mul_self_sqrt (by norm_num : (0 : ℝ) ≤ 1889 / 3276)]
  norm_num

theorem witness_sim_ab :
    cosineSimilarity (some [1, 0, 0])
      (some [41 / 50, Real.sqrt (819 / 2500), 0]) = 0.82 := by
  rw [cosineSimilarity_unit_three]
  · norm_num
  · norm_num
  · exact witness_b_norm

theorem witness_sim_ac :
    cosineSimilarity (some [1, 0, 0])
      (some [9 / 20, -(269 / 1000) / Real.sqrt (819 / 2500),
        Real.sqrt (1889 / 3276)]) = 0.45 := by
  rw [cosineSimilarity_unit_three]
  · norm_num
  · norm_num
  · exact witness_c_norm

theorem witness_sim_bc :
    cosineSimilarity (some [41 / 50, Real.sqrt (819 / 2500), 0])
      (some [9 / 20, -(269 / 1000) / Real.sqrt (819 / 2500),
        Real.sqrt (1889 / 3276)]) = 0.1 := by
  have hs0 : Real.sqrt (819 / 2500) ≠ 0 :=
    ne_of_gt (Real.sqrt_pos.mpr (by norm_num))
  rw [cosineSimilarity_unit_three]
  · have key : Real.sqrt (819 / 2500) * (-(269 / 1000) / Real.sqrt (819 / 2500)) =
        -(269 / 1000) := by
      field_simp
      ring
    rw [key]
    norm_num
  · exact witness_b_norm
  · exact witness_c_norm

/-- Witness for C1: concrete unit embeddings realizing the pairwise
similarities 0.82, 0.45 and 0.1 exactly. -/
theorem buildKnowledgeGraph_example_scenario_witness :
    (buildKnowledgeGraphClassified
        [⟨['A'], [], [], [], some [1, 0, 0]⟩,
          ⟨['B'], [], [], [], some [41 / 50, Real.sqrt (819 / 2500), 0]⟩,
          ⟨['C'], [], [], [], some [9 / 20, -(269 / 1000) / Real.sqrt (819 / 2500),
            Real.sqrt (1889 / 3276)]⟩] 0.3 0.75 0.3).2 =
      [⟨['A'], ['B'], 0.82, 0.82, Strength.strong, false⟩,
        ⟨['A'], ['C'], 0.45, 0.45, Strength.medium, false⟩] :=
  (buildKnowledgeGraph_example_scenario [] [] [] [] [] [] [] [] []
    _ _ _ witness_sim_ab witness_sim_ac witness_sim_bc).1

end JournalGraph
